import Mathlib

/-
Verification of the pie-chart widget repository (two Angular components:
an SVG widget built on d3, and a canvas widget built on Chart.js).

Conventions of the embedding:
* Numbers are modelled as exact rationals.  Angles are measured in units
  of pi (half-turns), so the full circle, written as tau = 2 * pi in the
  d3 source, is the rational number 2.
* JavaScript division can produce NaN and infinities; where the source
  divides by a possibly-zero total we use the JsNum type, which mirrors
  that behaviour exactly on rational inputs.
* Math.random in getRandomColor is modelled by an oracle (a function
  from the position of the datum to a colour string).
-/

namespace Chart

/-- A data point of either widget: a label, a value and an optional
explicit fill colour (the TypeScript input type
of the data input of both components). -/
structure Slice where
  label : String
  value : ℚ
  color : Option String
deriving DecidableEq, Repr

instance : Inhabited Slice := ⟨⟨"", 0, none⟩⟩

/-- The full circle.  Angles are measured in units of pi, so
tau (2 * pi in the d3 source) is 2. -/
def tau : ℚ := 2

/-- One element of the array returned by the d3 pie layout:
the original datum, the position in the angular iteration order,
the extracted value, and the start and end angles. -/
structure PieArcDatum where
  data : Slice
  index : ℕ
  value : ℚ
  startAngle : ℚ
  endAngle : ℚ
deriving DecidableEq, Repr

instance : Inhabited PieArcDatum := ⟨⟨default, 0, 0, 0, 0⟩⟩

/-- Insert an index into a list of indices that is sorted by weakly
descending value, placing it after every element of greater or equal
value.  This is the stable descending sort performed by
index.sort((i, j) => descending(arcs[i], arcs[j])) in the d3 pie
layout (JavaScript Array.prototype.sort is stable). -/
def insertByDesc (v : ℕ → ℚ) (i : ℕ) : List ℕ → List ℕ
  | [] => [i]
  | j :: rest => if v i ≤ v j then j :: insertByDesc v i rest else i :: j :: rest

/-- Stable sort of a list of indices by weakly descending value. -/
def sortIndicesDesc (v : ℕ → ℚ) (idx : List ℕ) : List ℕ :=
  idx.foldl (fun acc i => insertByDesc v i acc) []

/-- The angular span a value receives: positive values get value * k,
other values get zero width (the v > 0 test of the d3 pie layout). -/
def arcSpan (k v : ℚ) : ℚ := if 0 < v then v * k else 0

/-- Walk the sorted index list assigning start and end angles
cumulatively, as the final loop of the d3 pie layout does.  Each entry
is (original index, iteration position, start angle, end angle). -/
def assignAngles (k : ℚ) (v : ℕ → ℚ) : List ℕ → ℕ → ℚ → List (ℕ × ℕ × ℚ × ℚ)
  | [], _, _ => []
  | j :: rest, i, a0 => (j, i, a0, a0 + arcSpan k (v j)) :: assignAngles k v rest (i + 1) (a0 + arcSpan k (v j))

/-- The value of the slice at an index of the data list (0 past the end). -/
def sliceValue (data : List Slice) (j : ℕ) : ℚ := ((data.get? j).map Slice.value).getD 0

/-- Sum of the positive values, as the first loop of the d3 pie layout
computes it (only values v > 0 are added to sum). -/
def posSum (data : List Slice) : ℚ :=
  (List.range data.length).foldl (fun s j => if 0 < sliceValue data j then s + sliceValue data j else s) 0

/-- The sorted iteration order of the d3 pie layout over a data list:
indices 0..n-1, stably sorted by descending value. -/
def pieOrder (data : List Slice) : List ℕ :=
  sortIndicesDesc (sliceValue data) (List.range data.length)

/-- The angular scale factor k of the d3 pie layout: with default
start angle 0, end angle tau and pad angle 0 this is tau / sum when the
positive sum is nonzero and 0 otherwise. -/
def pieK (data : List Slice) : ℚ :=
  if posSum data ≠ 0 then tau / posSum data else 0

/-- The cumulative angle-assignment list of the d3 pie layout, in the
sorted iteration order, starting at angle 0. -/
def pieEntries (data : List Slice) : List (ℕ × ℕ × ℚ × ℚ) :=
  assignAngles (pieK data) (sliceValue data) (pieOrder data) 0 0

/-- The arc datum the d3 pie layout writes at original index j: the
datum of data[j], with the iteration position and the angles the sorted
cumulative assignment gave to index j. -/
def d3PieArc (data : List Slice) (j : ℕ) : PieArcDatum :=
  let e := ((pieEntries data).find? (fun e => e.1 = j)).getD (j, 0, 0, 0)
  { data := (data.get? j).getD default
    index := e.2.1
    value := sliceValue data j
    startAngle := e.2.2.1
    endAngle := e.2.2.2 }

/-- The d3 pie layout d3.pie().value(d => d.value) applied to a data
list, with all options left at their defaults (sortValues = descending,
startAngle 0, endAngle tau, padAngle 0).  The result is indexed like the
input: arcs[j] holds the datum of data[j] with the angles the sorted
iteration assigned to original index j. -/
def d3Pie (data : List Slice) : List PieArcDatum :=
  (List.range data.length).map (d3PieArc data)

/-- The d3.schemeCategory10 palette used by the SVG widget's ordinal
colour scale. -/
def schemeCategory10 : List String :=
  ["#1f77b4", "#ff7f0e", "#2ca02c", "#d62728", "#9467bd",
   "#8c564b", "#e377c2", "#7f7f7f", "#bcbd22", "#17becf"]

/-- The fill colour the SVG widget gives the arc at position i:
d.data.color when present, otherwise the ordinal scale applied to the
string of i.  A fresh scaleOrdinal(schemeCategory10) sees the distinct
keys "0", "1", ... in order during the fill pass, so it resolves to the
palette colour at i modulo the palette length. -/
def svgFill (s : Slice) (i : ℕ) : String :=
  s.color.getD (schemeCategory10.getD (i % schemeCategory10.length) "")

/-- One arc group appended by drawChart: the bound pie datum, the fill
of its path, and the text of its label. -/
structure SvgArc where
  datum : PieArcDatum
  fill : String
  labelText : String
deriving DecidableEq, Repr

/-- The element tree drawChart leaves on the SVG surface: the centred
group's translation, the arc radius, and the arc groups in data order. -/
structure RenderedChart where
  center : ℚ × ℚ
  radius : ℚ
  arcs : List SvgArc
deriving DecidableEq, Repr

/-- The state of the SVG widget: whether the viewChild reference to the
SVG element resolves, and the drawn content (none = empty surface). -/
structure D3State where
  chartRef : Bool
  rendered : Option RenderedChart
deriving DecidableEq, Repr

/-- The content drawChart draws for the current data, width and height:
one arc group per pie datum, with fill and label text from the bound
slice. -/
def renderSvg (data : List Slice) (width height : ℚ) : RenderedChart :=
  { center := (width / 2, height / 2)
    radius := min width height / 2
    arcs := (d3Pie data).enum.map fun p =>
      { datum := p.2, fill := svgFill p.2.data p.1, labelText := p.2.data.label } }

/-- D3PieComponent.drawChart: if the viewChild reference does not
resolve, return without touching the surface; otherwise clear the
surface (svg.selectAll, remove) and draw the chart for the current
inputs. -/
def drawChart (s : D3State) (data : List Slice) (width height : ℚ) : D3State :=
  if s.chartRef then { s with rendered := some (renderSvg data width height) } else s

/-- D3PieComponent.ngOnDestroy: when the viewChild reference resolves,
remove every element from the surface; otherwise do nothing. -/
def d3NgOnDestroy (s : D3State) : D3State :=
  if s.chartRef then { s with rendered := none } else s

/-- The click handler installed on an arc path: emit arcClick with the
bound datum's data record.  One emission per invocation. -/
def svgPathClick (a : SvgArc) : List Slice := [a.datum.data]

/-- The click handler installed on an arc's text label: identical to
the path handler, it emits arcClick with the bound datum's data. -/
def svgLabelClick (a : SvgArc) : List Slice := [a.datum.data]

/-- One reactive trigger of the SVG widget's effect: the inputs read at
that instant, together with whether the viewChild reference resolves at
that instant. -/
structure D3Trigger where
  refOk : Bool
  data : List Slice
  width : ℚ
  height : ℚ

/-- Run the SVG widget's effect over a sequence of input changes: each
trigger calls drawChart with the inputs of that instant. -/
def d3Run (s : D3State) (ts : List D3Trigger) : D3State :=
  ts.foldl (fun s t => drawChart { s with chartRef := t.refOk } t.data t.width t.height) s

/-- JavaScript numbers relevant to the percentage pipeline: a finite
(here exact rational) value, NaN, or a signed infinity. -/
inductive JsNum where
  | num (q : ℚ)
  | nan
  | posInf
  | negInf
deriving DecidableEq, Repr

/-- JavaScript division of finite values: v / 0 is NaN when v = 0 and
a signed infinity otherwise; any other division is exact. -/
def jsDiv (a b : ℚ) : JsNum :=
  if b = 0 then (if a = 0 then JsNum.nan else if 0 < a then JsNum.posInf else JsNum.negInf)
  else JsNum.num (a / b)

/-- Multiplication of a JavaScript number by a finite constant:
NaN stays NaN; an infinity times zero is NaN, otherwise the sign rule
applies. -/
def JsNum.scale (c : ℚ) : JsNum → JsNum
  | JsNum.num q => JsNum.num (q * c)
  | JsNum.nan => JsNum.nan
  | JsNum.posInf => if c = 0 then JsNum.nan else if 0 < c then JsNum.posInf else JsNum.negInf
  | JsNum.negInf => if c = 0 then JsNum.nan else if 0 < c then JsNum.negInf else JsNum.posInf

/-- Math.round on a JavaScript number: floor (x + 1/2) on finite values
(which is Mathlib round on exact rationals), fixed on NaN and the
infinities. -/
def jsRound : JsNum → JsNum
  | JsNum.num q => JsNum.num ((round q : ℤ) : ℚ)
  | x => x

/-- The JavaScript comparison x >= c against a finite constant:
false on NaN, true on positive infinity, false on negative infinity. -/
def JsNum.geNum (c : ℚ) : JsNum → Bool
  | JsNum.num q => decide (c ≤ q)
  | JsNum.nan => false
  | JsNum.posInf => true
  | JsNum.negInf => false

/-- JavaScript stringification of a finite number, exact on integral
values, which is the only way the widgets print numbers in the claims
under verification. -/
def jsRatToString (q : ℚ) : String :=
  if q.den = 1 then toString q.num else toString q

/-- JavaScript stringification of a possibly non-finite number. -/
def JsNum.toJsString : JsNum → String
  | JsNum.num q => jsRatToString q
  | JsNum.nan => "NaN"
  | JsNum.posInf => "Infinity"
  | JsNum.negInf => "-Infinity"

/-- The labelFormat input of the canvas widget. -/
inductive LabelFormat where
  | label
  | value
  | percentage
  | labelValue
  | labelPercentage
deriving DecidableEq, Repr

/-- The data block of the Chart.js configuration built by
getChartConfig: the labels array and the single dataset's data and
backgroundColor arrays. -/
structure ChartData where
  labels : List String
  values : List ℚ
  backgroundColor : List String
deriving DecidableEq, Repr

/-- The option fields of the Chart.js configuration that the inputs
determine; the datalabels formatter and display callbacks close over
labelFormat and showInlineLabels, modelled below as functions of the
config. -/
structure ChartOptions where
  legendDisplay : Bool
  titleDisplay : Bool
  titleText : String
  showInlineLabels : Bool
  labelFormat : LabelFormat
deriving DecidableEq, Repr

/-- A Chart.js configuration. -/
structure ChartConfig where
  data : ChartData
  options : ChartOptions
deriving DecidableEq, Repr

/-- The inputs of the canvas widget that getChartConfig reads. -/
structure CanvasInputs where
  data : List Slice
  title : String
  showLegend : Bool
  showInlineLabels : Bool
  labelFormat : LabelFormat
deriving Repr

/-- ChartjsPieComponent.getChartConfig: labels, values and colours are
mapped from the data input (explicit colour, or a random colour drawn
for that position, modelled by the oracle randColor); legend and title
visibility come from the inputs.  titleDisplay is the truthiness of the
title string. -/
def getChartConfig (inp : CanvasInputs) (randColor : ℕ → String) : ChartConfig :=
  { data :=
      { labels := inp.data.map Slice.label
        values := inp.data.map Slice.value
        backgroundColor := inp.data.enum.map fun p => (p.2.color).getD (randColor p.1) }
    options :=
      { legendDisplay := inp.showLegend
        titleDisplay := inp.title ≠ ""
        titleText := inp.title
        showInlineLabels := inp.showInlineLabels
        labelFormat := inp.labelFormat } }

/-- The percentage the canvas widget computes from a value and a total:
Math.round((value / total) * 100), with JavaScript semantics when the
total is zero. -/
def percentageOf (value total : ℚ) : JsNum :=
  jsRound ((jsDiv value total).scale 100)

/-- The datalabels formatter callback of getChartConfig: builds the
inline label text of the segment at dataIndex from the chart's labels
and dataset values, switching on the captured labelFormat; total is the
reduce-sum of all dataset values. -/
def formatter (fmt : LabelFormat) (labels : List String) (values : List ℚ) (dataIndex : ℕ) : String :=
  let label := labels.getD dataIndex ""
  let value := values.getD dataIndex 0
  let total := values.sum
  let percentage := percentageOf value total
  match fmt with
  | LabelFormat.value => jsRatToString value
  | LabelFormat.percentage => percentage.toJsString ++ "%"
  | LabelFormat.labelValue => label ++ ": " ++ jsRatToString value
  | LabelFormat.labelPercentage => label ++ ": " ++ percentage.toJsString ++ "%"
  | LabelFormat.label => label

/-- The datalabels display callback of getChartConfig: false when
showInlineLabels is false, otherwise the test
(value / total) * 100 >= 5 with JavaScript semantics. -/
def displayLabel (showInlineLabels : Bool) (values : List ℚ) (dataIndex : ℕ) : Bool :=
  if !showInlineLabels then false
  else
    let total := values.sum
    let value := values.getD dataIndex 0
    ((jsDiv value total).scale 100).geNum 5

/-- The tooltip label callback of getChartConfig: "label: value (pct%)"
with the same percentage computation as the formatter. -/
def tooltipLabel (labels : List String) (values : List ℚ) (dataIndex : ℕ) : String :=
  let label := labels.getD dataIndex ""
  let value := values.getD dataIndex 0
  let total := values.sum
  let percentage := percentageOf value total
  label ++ ": " ++ jsRatToString value ++ " (" ++ percentage.toJsString ++ "%)"

/-- The live Chart.js instance owned by the canvas widget: an identity
token distinguishing distinct new Chart allocations, and the mutable
data and options blocks. -/
structure ChartInstance where
  id : ℕ
  data : ChartData
  options : ChartOptions
deriving DecidableEq, Repr

/-- The state of the canvas widget: the chart field (null before a
successful initChart) and a counter supplying fresh identities for
new Chart allocations. -/
structure CanvasState where
  chart : Option ChartInstance
  nextId : ℕ
deriving DecidableEq, Repr

/-- The state of the canvas widget at construction: no chart instance
exists yet. -/
def canvasInit : CanvasState := { chart := none, nextId := 0 }

/-- ChartjsPieComponent.initChart: return untouched when the viewChild
reference does not resolve or the 2d context is unavailable; otherwise
allocate the one Chart.js instance from the current configuration. -/
def initChart (s : CanvasState) (canvasOk ctxOk : Bool) (inp : CanvasInputs) (randColor : ℕ → String) : CanvasState :=
  if !canvasOk then s
  else if !ctxOk then s
  else
    let cfg := getChartConfig inp randColor
    { chart := some { id := s.nextId, data := cfg.data, options := cfg.options }
      nextId := s.nextId + 1 }

/-- ChartjsPieComponent.updateChart: a no-op while chart is null;
otherwise overwrite the existing instance's data and options in place
(same identity) and request an update. -/
def updateChart (s : CanvasState) (inp : CanvasInputs) (randColor : ℕ → String) : CanvasState :=
  match s.chart with
  | none => s
  | some c =>
      let cfg := getChartConfig inp randColor
      { s with chart := some { c with data := cfg.data, options := cfg.options } }

/-- One input-change trigger of the canvas widget's effect: the inputs
read at that instant and the random-colour oracle of that render. -/
structure CanvasTrigger where
  inputs : CanvasInputs
  randColor : ℕ → String

/-- Apply a sequence of input-change triggers, each running
updateChart. -/
def canvasUpdates (s : CanvasState) (ts : List CanvasTrigger) : CanvasState :=
  ts.foldl (fun s t => updateChart s t.inputs t.randColor) s

/-- The whole reactive life of the canvas widget: the effect fires some
number of times before afterNextRender (the constructor runs the effect
first), then initChart runs exactly once, then every further input
change runs updateChart. -/
def canvasLifetime (pre : List CanvasTrigger) (canvasOk ctxOk : Bool)
    (initInp : CanvasInputs) (initRand : ℕ → String) (post : List CanvasTrigger) : CanvasState :=
  canvasUpdates (initChart (canvasUpdates canvasInit pre) canvasOk ctxOk initInp initRand) post

/-- ChartjsPieComponent's canvas click subscription: with no chart
instance nothing is emitted; otherwise take the first hit-tested
element (nearest mode), read its index, look the index up in the
current data input, and emit that entry when it exists.  The returned
list is the sequence of emissions of segmentClick for this click. -/
def canvasClickHandler (chart : Option ChartInstance) (points : List ℕ) (data : List Slice) : List Slice :=
  match chart with
  | none => []
  | some _ =>
      match points with
      | [] => []
      | index :: _ =>
          match data.get? index with
          | some item => [item]
          | none => []

/-- ChartjsPieComponent.ngOnDestroy: destroy the instance when one
exists and null the field; a no-op otherwise.  The second component
counts the destroy calls issued to the library. -/
def canvasNgOnDestroy (s : CanvasState) : CanvasState × ℕ :=
  match s.chart with
  | some _ => ({ s with chart := none }, 1)
  | none => (s, 0)

/-- The slice at a position of the data list (a default slice past the
end; every use is guarded by a bound). -/
def sliceAt (data : List Slice) (j : ℕ) : Slice := (data.get? j).getD default

/-- The labels array the canvas widget's configuration carries for a
data input. -/
def labelsOf (data : List Slice) : List String := data.map Slice.label

/-- The dataset values array the canvas widget's configuration carries
for a data input. -/
def valuesOf (data : List Slice) : List ℚ := data.map Slice.value

/-- The angular span of the arc at a position of a pie layout result
(0 past the end). -/
def arcSpanOf (arcs : List PieArcDatum) (j : ℕ) : ℚ :=
  ((arcs.get? j).map (fun a => a.endAngle - a.startAngle)).getD 0

/-- The sum of the angular spans of a pie layout result. -/
def spanSum (arcs : List PieArcDatum) : ℚ :=
  (arcs.map (fun a => a.endAngle - a.startAngle)).sum

/-- Cumulative (start, end) angle pairs for a list of spans, in the
order given. -/
def seqCumAngles : List ℚ → ℚ → List (ℚ × ℚ)
  | [], _ => []
  | v :: rest, a0 => (a0, a0 + v) :: seqCumAngles rest (a0 + v)

/-- Modelled from the spec: the angle assignment the spec's words
describe, iterating in the given sequence order and assigning start and
end angles cumulatively, with the same span per slice as the d3
layout. -/
def pieSeqOrder (data : List Slice) : List (ℚ × ℚ) :=
  seqCumAngles (data.map (fun s => arcSpan (pieK data) s.value)) 0

/-- The (start, end) angle pairs of a pie layout result, in data
order. -/
def anglePairs (arcs : List PieArcDatum) : List (ℚ × ℚ) :=
  arcs.map (fun a => (a.startAngle, a.endAngle))

/-- The three-slice data list of the spec's scenario. -/
def dataABC : List Slice :=
  [⟨"A", 30, none⟩, ⟨"B", 50, none⟩, ⟨"C", 20, none⟩]

/-- A one-slice data list whose only value is zero. -/
def dataZero : List Slice := [⟨"Z", 0, none⟩]

/-- The keys of the angle-assignment list are exactly the iterated
index list, in order. -/
theorem assignAngles_map_fst (k : ℚ) (v : ℕ → ℚ) :
    ∀ (l : List ℕ) (i : ℕ) (a0 : ℚ), (assignAngles k v l i a0).map Prod.fst = l := by
  intro l
  induction l with
  | nil => intro i a0; rfl
  | cons j rest ih => intro i a0; simp [assignAngles, ih]

/-- Every entry of the angle-assignment list spans exactly the arc span
of its key's value. -/
theorem assignAngles_span (k : ℚ) (v : ℕ → ℚ) :
    ∀ (l : List ℕ) (i : ℕ) (a0 : ℚ), ∀ e ∈ assignAngles k v l i a0,
      e.2.2.2 = e.2.2.1 + arcSpan k (v e.1) := by
  intro l
  induction l with
  | nil => intro i a0 e he; simp [assignAngles] at he
  | cons j rest ih =>
      intro i a0 e he
      simp only [assignAngles, List.mem_cons] at he
      rcases he with rfl | he
      · rfl
      · exact ih (i + 1) (a0 + arcSpan k (v j)) e he

/-- Consecutive entries of the angle-assignment list share an angle:
each entry starts where the previous one ended. -/
theorem assignAngles_chain (k : ℚ) (v : ℕ → ℚ) :
    ∀ (l : List ℕ) (i : ℕ) (a0 : ℚ),
      List.Chain' (fun e f : ℕ × ℕ × ℚ × ℚ => f.2.2.1 = e.2.2.2) (assignAngles k v l i a0) := by
  intro l
  induction l with
  | nil => intro i a0; exact List.chain'_nil
  | cons j rest ih =>
      intro i a0
      cases rest with
      | nil => simp [assignAngles]
      | cons j2 rest2 =>
          refine List.Chain'.cons ?_ (ih (i + 1) (a0 + arcSpan k (v j)))
          rfl

/-- The first entry of a nonempty angle assignment starts at the given
initial angle. -/
theorem assignAngles_head_start (k : ℚ) (v : ℕ → ℚ) (l : List ℕ) (i : ℕ) (a0 : ℚ) :
    ∀ e ∈ (assignAngles k v l i a0).head?, e.2.2.1 = a0 := by
  cases l with
  | nil => intro e he; simp [assignAngles] at he
  | cons j rest => intro e he; simp [assignAngles] at he; simp [← he]

/-- Membership in a stable descending insertion. -/
theorem mem_insertByDesc (v : ℕ → ℚ) (i x : ℕ) :
    ∀ l : List ℕ, x ∈ insertByDesc v i l ↔ x = i ∨ x ∈ l := by
  intro l
  induction l with
  | nil => simp [insertByDesc]
  | cons j rest ih =>
      by_cases h : v i ≤ v j
      · simp only [insertByDesc, if_pos h, List.mem_cons, ih]
        tauto
      · simp only [insertByDesc, if_neg h, List.mem_cons]

/-- Membership after the stable descending sort of the pie layout. -/
theorem mem_sortIndicesDesc (v : ℕ → ℚ) (x : ℕ) (l : List ℕ) :
    x ∈ sortIndicesDesc v l ↔ x ∈ l := by
  have key : ∀ (l acc : List ℕ),
      (x ∈ l.foldl (fun acc i => insertByDesc v i acc) acc ↔ x ∈ l ∨ x ∈ acc) := by
    intro l
    induction l with
    | nil => intro acc; simp
    | cons j rest ih =>
        intro acc
        simp only [List.foldl_cons, ih, mem_insertByDesc, List.mem_cons]
        tauto
  simpa using key l []

/-- The head of a stable descending insertion is the inserted index or
the previous head. -/
theorem head?_insertByDesc (v : ℕ → ℚ) (i : ℕ) :
    ∀ l : List ℕ, (insertByDesc v i l).head? = some i ∨ (insertByDesc v i l).head? = l.head? := by
  intro l
  cases l with
  | nil => left; rfl
  | cons j rest =>
      by_cases h : v i ≤ v j
      · right; simp [insertByDesc, if_pos h]
      · left; simp [insertByDesc, if_neg h]

/-- A stable descending insertion into a weakly descending list is
weakly descending. -/
theorem chain_insertByDesc (v : ℕ → ℚ) (i : ℕ) :
    ∀ l : List ℕ, List.Chain' (fun a b => v b ≤ v a) l →
      List.Chain' (fun a b => v b ≤ v a) (insertByDesc v i l) := by
  intro l
  induction l with
  | nil => intro _; simp [insertByDesc]
  | cons j rest ih =>
      intro h
      rw [List.chain'_cons'] at h
      by_cases hij : v i ≤ v j
      · rw [insertByDesc, if_pos hij, List.chain'_cons']
        refine ⟨?_, ih h.2⟩
        intro y hy
        rcases head?_insertByDesc v i rest with hh | hh
        · rw [hh] at hy
          simp only [Option.mem_def, Option.some_inj] at hy
          exact hy ▸ hij
        · rw [hh] at hy
          exact h.1 y hy
      · rw [insertByDesc, if_neg hij, List.chain'_cons']
        refine ⟨?_, List.chain'_cons'.mpr h⟩
        intro y hy
        simp only [List.head?_cons, Option.mem_def, Option.some_inj] at hy
        exact hy ▸ le_of_not_le hij

/-- The stable sort of the pie layout produces a weakly descending
index list. -/
theorem chain_sortIndicesDesc (v : ℕ → ℚ) (l : List ℕ) :
    List.Chain' (fun a b => v b ≤ v a) (sortIndicesDesc v l) := by
  have key : ∀ (l acc : List ℕ), List.Chain' (fun a b => v b ≤ v a) acc →
      List.Chain' (fun a b => v b ≤ v a) (l.foldl (fun acc i => insertByDesc v i acc) acc) := by
    intro l
    induction l with
    | nil => intro acc h; simpa using h
    | cons j rest ih =>
        intro acc h
        exact ih (insertByDesc v j acc) (chain_insertByDesc v j acc h)
  exact key l [] List.chain'_nil

/-- The iteration order of the pie layout visits exactly the valid
indices of the data list. -/
theorem mem_pieOrder (data : List Slice) (j : ℕ) :
    j ∈ pieOrder data ↔ j < data.length := by
  rw [pieOrder, mem_sortIndicesDesc, List.mem_range]

/-- For a valid index, the lookup inside the pie layout finds the entry
of that index in the cumulative assignment. -/
theorem pieEntries_find (data : List Slice) (j : ℕ) (hj : j < data.length) :
    ∃ e, (pieEntries data).find? (fun e => e.1 = j) = some e
      ∧ e ∈ pieEntries data ∧ e.1 = j := by
  have hmem : j ∈ pieOrder data := (mem_pieOrder data j).mpr hj
  have hkeys : (pieEntries data).map Prod.fst = pieOrder data :=
    assignAngles_map_fst (pieK data) (sliceValue data) (pieOrder data) 0 0
  have hx : ∃ x ∈ pieEntries data, x.1 = j := by
    rw [← hkeys] at hmem
    rcases List.mem_map.mp hmem with ⟨x, hx, hx1⟩
    exact ⟨x, hx, hx1⟩
  have hsome : ((pieEntries data).find? (fun e => decide (e.1 = j))).isSome := by
    rw [List.find?_isSome]
    rcases hx with ⟨x, hx, hx1⟩
    exact ⟨x, hx, decide_eq_true hx1⟩
  rcases Option.isSome_iff_exists.mp hsome with ⟨e, he⟩
  refine ⟨e, he, List.mem_of_find?_eq_some he, ?_⟩
  have hp := List.find?_some (p := fun e : ℕ × ℕ × ℚ × ℚ => decide (e.1 = j)) he
  simpa using hp

/-- The arc at a valid index carries the slice and value of that index,
and its angles are those the cumulative assignment gave to that
index. -/
theorem d3PieArc_eq (data : List Slice) (j : ℕ) (hj : j < data.length) :
    ∃ e ∈ pieEntries data, e.1 = j ∧
      d3PieArc data j =
        { data := sliceAt data j, index := e.2.1, value := sliceValue data j,
          startAngle := e.2.2.1, endAngle := e.2.2.2 } := by
  rcases pieEntries_find data j hj with ⟨e, hfind, hmem, hkey⟩
  refine ⟨e, hmem, hkey, ?_⟩
  rw [d3PieArc, hfind]
  rfl

/-- The span of the arc at a valid index is the arc span of its
value. -/
theorem d3PieArc_span (data : List Slice) (j : ℕ) (hj : j < data.length) :
    (d3PieArc data j).endAngle - (d3PieArc data j).startAngle
      = arcSpan (pieK data) (sliceValue data j) := by
  rcases d3PieArc_eq data j hj with ⟨e, hmem, hkey, harc⟩
  have hspan := assignAngles_span (pieK data) (sliceValue data)
    (pieOrder data) 0 0 e hmem
  rw [harc]
  simp only
  rw [hspan, hkey]
  ring

/-- The pie layout returns one arc per datum. -/
theorem d3Pie_length (data : List Slice) : (d3Pie data).length = data.length := by
  simp [d3Pie]

/-- Indexing the pie layout result at a valid index. -/
theorem d3Pie_getElem (data : List Slice) (j : ℕ) (hj : j < data.length) :
    (d3Pie data)[j]? = some (d3PieArc data j) := by
  rw [d3Pie, List.getElem?_map, List.getElem?_range hj]
  rfl

/-- The conditional fold computing the positive sum is the sum of the
clamped values. -/
theorem foldl_pos_sum (v : ℕ → ℚ) :
    ∀ (l : List ℕ) (a : ℚ),
      l.foldl (fun s j => if 0 < v j then s + v j else s) a
        = a + (l.map (fun j => if 0 < v j then v j else 0)).sum := by
  intro l
  induction l with
  | nil => intro a; simp
  | cons j rest ih =>
      intro a
      rw [List.foldl_cons, ih, List.map_cons, List.sum_cons]
      by_cases h : 0 < v j
      · rw [if_pos h, if_pos h]; ring
      · rw [if_neg h, if_neg h]; ring

/-- The positive sum of the pie layout as a sum over all indices. -/
theorem posSum_eq (data : List Slice) :
    posSum data = ((List.range data.length).map
      (fun j => if 0 < sliceValue data j then sliceValue data j else 0)).sum := by
  rw [posSum, foldl_pos_sum, zero_add]

/-- The sum of the angular spans of the pie layout is the positive sum
scaled by the angular factor. -/
theorem spanSum_d3Pie (data : List Slice) :
    spanSum (d3Pie data) = posSum data * pieK data := by
  rw [spanSum, d3Pie, List.map_map]
  have hcong : (List.range data.length).map
      ((fun a : PieArcDatum => a.endAngle - a.startAngle) ∘ d3PieArc data)
      = (List.range data.length).map
          (fun j => (if 0 < sliceValue data j then sliceValue data j else 0) * pieK data) := by
    refine List.map_congr_left ?_
    intro j hj
    have hjlt : j < data.length := List.mem_range.mp hj
    have := d3PieArc_span data j hjlt
    simp only [Function.comp_apply]
    rw [this, arcSpan]
    by_cases h : 0 < sliceValue data j
    · rw [if_pos h, if_pos h]
    · rw [if_neg h, if_neg h, zero_mul]
  rw [hcong, List.sum_map_mul_right, ← posSum_eq]

/-- The span of the pie layout's arc at a valid index, as arcSpanOf. -/
theorem arcSpanOf_d3Pie (data : List Slice) (j : ℕ) (hj : j < data.length) :
    arcSpanOf (d3Pie data) j = arcSpan (pieK data) (sliceValue data j) := by
  rw [arcSpanOf, List.get?_eq_getElem?, d3Pie_getElem data j hj, Option.map_some', Option.getD_some]
  exact d3PieArc_span data j hj

/-- Claim C2 (amended): for every Slice sequence, the SVG widget's pie
layout produces one arc per datum; when the positive value sum is
nonzero, the angular spans sum to a full revolution and each arc's span
times the positive sum equals its nonnegative value times the full
revolution; a value of 0 yields a zero-width span; start and end angles
are assigned cumulatively, starting at 0, in stable descending-value
order (not input sequence order), and each arc carries the angles the
cumulative assignment gave its original index. -/
theorem c2_pie_partition (data : List Slice) :
    (d3Pie data).length = data.length
    ∧ (posSum data ≠ 0 → spanSum (d3Pie data) = tau)
    ∧ (∀ j, j < data.length → 0 ≤ sliceValue data j → posSum data ≠ 0 →
        arcSpanOf (d3Pie data) j * posSum data = sliceValue data j * tau)
    ∧ (∀ j, j < data.length → sliceValue data j = 0 → arcSpanOf (d3Pie data) j = 0)
    ∧ List.Chain' (fun e f : ℕ × ℕ × ℚ × ℚ => f.2.2.1 = e.2.2.2) (pieEntries data)
    ∧ (∀ e ∈ (pieEntries data).head?, e.2.2.1 = 0)
    ∧ List.Chain' (fun e f : ℕ × ℕ × ℚ × ℚ => sliceValue data f.1 ≤ sliceValue data e.1)
        (pieEntries data)
    ∧ (∀ j, j < data.length → ∃ e ∈ pieEntries data, e.1 = j
        ∧ ((d3Pie data)[j]?).map PieArcDatum.startAngle = some e.2.2.1
        ∧ ((d3Pie data)[j]?).map PieArcDatum.endAngle = some e.2.2.2) := by
  refine ⟨d3Pie_length data, ?_, ?_, ?_, ?_, ?_, ?_, ?_⟩
  · intro hpos
    rw [spanSum_d3Pie, pieK, if_pos hpos, tau]
    field_simp
  · intro j hj hv hpos
    rw [arcSpanOf_d3Pie data j hj, arcSpan, pieK, if_pos hpos]
    rcases lt_or_eq_of_le hv with hv' | hv'
    · rw [if_pos hv']
      field_simp
    · rw [← hv', if_neg (lt_irrefl 0), zero_mul, zero_mul]
  · intro j hj hv
    rw [arcSpanOf_d3Pie data j hj, arcSpan, hv]
    simp
  · exact assignAngles_chain (pieK data) (sliceValue data) (pieOrder data) 0 0
  · exact assignAngles_head_start (pieK data) (sliceValue data) (pieOrder data) 0 0
  · have hkeys : (pieEntries data).map Prod.fst = pieOrder data :=
      assignAngles_map_fst (pieK data) (sliceValue data) (pieOrder data) 0 0
    have hchain := chain_sortIndicesDesc (sliceValue data) (List.range data.length)
    rw [← pieOrder, ← hkeys, List.chain'_map] at hchain
    exact hchain
  · intro j hj
    rcases d3PieArc_eq data j hj with ⟨e, hmem, hkey, harc⟩
    refine ⟨e, hmem, hkey, ?_, ?_⟩
    · rw [d3Pie_getElem data j hj, Option.map_some', harc]
    · rw [d3Pie_getElem data j hj, Option.map_some', harc]

/-- Witness: the amended C2 evaluated on the three-slice scenario
data. -/
theorem c2_pie_partition_witness :
    spanSum (d3Pie dataABC) = tau
    ∧ arcSpanOf (d3Pie dataABC) 0 * posSum dataABC = sliceValue dataABC 0 * tau := by
  have h := c2_pie_partition dataABC
  have hpos : posSum dataABC ≠ 0 := by
    norm_num [posSum, sliceValue, dataABC, List.range_succ]
  have h0 : (0:ℚ) ≤ sliceValue dataABC 0 := by
    norm_num [sliceValue, dataABC]
  exact ⟨h.2.1 hpos, h.2.2.1 0 (by norm_num [dataABC]) h0 hpos⟩

/-- Counterexample to C2 as stated: on the scenario data the d3 layout
does not assign angles cumulatively in sequence order (the first slice
starts at angle pi, not 0, because the layout iterates in descending
value order), and on an all-zero sequence the spans sum to 0, not to a
full revolution. -/
theorem c2_counterexample :
    anglePairs (d3Pie dataABC) ≠ pieSeqOrder dataABC
    ∧ spanSum (d3Pie dataZero) ≠ tau := by
  constructor
  · have hval : anglePairs (d3Pie dataABC) = [(1, 8/5), (0, 1), (8/5, 2)] := by
      norm_num [anglePairs, d3Pie, d3PieArc, pieEntries, pieOrder, sortIndicesDesc,
        insertByDesc, assignAngles, pieK, posSum, sliceValue, arcSpan, tau, dataABC,
        List.range_succ]
    have hseq : pieSeqOrder dataABC = [(0, 3/5), (3/5, 8/5), (8/5, 2)] := by
      norm_num [pieSeqOrder, seqCumAngles, pieK, posSum, sliceValue, arcSpan, tau, dataABC,
        List.range_succ]
    rw [hval, hseq]
    norm_num
  · have hz : spanSum (d3Pie dataZero) = 0 := by
      norm_num [spanSum, d3Pie, d3PieArc, pieEntries, pieOrder, sortIndicesDesc,
        insertByDesc, assignAngles, pieK, posSum, sliceValue, arcSpan, tau, dataZero,
        List.range_succ]
    rw [hz, tau]
    norm_num

/-- The data field of the arc at an index is the slice at that
index. -/
theorem d3PieArc_data (data : List Slice) (j : ℕ) :
    (d3PieArc data j).data = sliceAt data j := rfl

/-- The SVG render produces one arc group per datum. -/
theorem renderSvg_arcs_length (data : List Slice) (w h : ℚ) :
    (renderSvg data w h).arcs.length = data.length := by
  simp [renderSvg, d3Pie_length]

/-- The arc group at a valid index of the SVG render: it binds the pie
datum of that index, fills with the slice's colour or the palette
colour of the index, and shows the slice's label. -/
theorem renderSvg_getElem (data : List Slice) (w h : ℚ) (j : ℕ) (hj : j < data.length) :
    (renderSvg data w h).arcs[j]? = some
      { datum := d3PieArc data j
        fill := svgFill (sliceAt data j) j
        labelText := (sliceAt data j).label } := by
  rw [renderSvg]
  simp only [List.getElem?_map, List.getElem?_enum, d3Pie_getElem data j hj,
    Option.map_some', d3PieArc_data]

/-- The slice lookup at a valid index succeeds with the slice at that
index. -/
theorem get?_sliceAt (data : List Slice) (j : ℕ) (hj : j < data.length) :
    data.get? j = some (sliceAt data j) := by
  rw [sliceAt, List.get?_eq_getElem?, List.getElem?_eq_getElem hj]
  rfl

/-- Claim C1: after a redraw with the surface mounted, the SVG widget's
surface holds exactly the arcs of the current render, one per pie datum
(stale content from any previous state is gone), and the canvas
widget's configuration carries labels, values and colours arrays each
of the data's length. -/
theorem c1_segment_count :
    (∀ (s : D3State) (data : List Slice) (w h : ℚ), s.chartRef = true →
        (drawChart s data w h).rendered = some (renderSvg data w h)
        ∧ (renderSvg data w h).arcs.length = data.length)
    ∧ (∀ (inp : CanvasInputs) (randColor : ℕ → String),
        (getChartConfig inp randColor).data.labels.length = inp.data.length
        ∧ (getChartConfig inp randColor).data.values.length = inp.data.length
        ∧ (getChartConfig inp randColor).data.backgroundColor.length = inp.data.length) := by
  constructor
  · intro s data w h href
    refine ⟨?_, renderSvg_arcs_length data w h⟩
    rw [drawChart, if_pos href]
  · intro inp randColor
    refine ⟨?_, ?_, ?_⟩ <;> simp [getChartConfig]

/-- Witness: C1 on the scenario data with a mounted surface. -/
theorem c1_segment_count_witness :
    (drawChart ⟨true, none⟩ dataABC 300 300).rendered = some (renderSvg dataABC 300 300)
    ∧ (renderSvg dataABC 300 300).arcs.length = dataABC.length :=
  c1_segment_count.1 ⟨true, none⟩ dataABC 300 300 rfl

/-- Claim C9: the SVG redraw is deterministic (the drawn content after
a redraw does not depend on the previous state) and idempotent, and
each arc group's fill is the slice's explicit colour when present and
the palette colour at the slice's positional index otherwise, with the
slice's label as text. -/
theorem c9_svg_idempotent :
    (∀ (s1 s2 : D3State) (data : List Slice) (w h : ℚ),
        s1.chartRef = true → s2.chartRef = true →
        (drawChart s1 data w h).rendered = (drawChart s2 data w h).rendered)
    ∧ (∀ (s : D3State) (data : List Slice) (w h : ℚ),
        drawChart (drawChart s data w h) data w h = drawChart s data w h)
    ∧ (∀ (data : List Slice) (w h : ℚ) (j : ℕ), j < data.length →
        ((renderSvg data w h).arcs[j]?).map SvgArc.fill
          = some ((sliceAt data j).color.getD (schemeCategory10.getD (j % 10) ""))
        ∧ ((renderSvg data w h).arcs[j]?).map SvgArc.labelText
          = some (sliceAt data j).label) := by
  refine ⟨?_, ?_, ?_⟩
  · intro s1 s2 data w h h1 h2
    rw [drawChart, if_pos h1, drawChart, if_pos h2]
  · intro s data w h
    cases hcr : s.chartRef
    · simp [drawChart, hcr]
    · simp [drawChart, hcr]
  · intro data w h j hj
    rw [renderSvg_getElem data w h j hj]
    constructor
    · rw [Option.map_some']
      simp only [svgFill]
      rfl
    · rw [Option.map_some']

/-- Witness: C9 on the scenario data, comparing an empty and a
non-empty previous surface and reading arc 0's fill and label. -/
theorem c9_svg_idempotent_witness :
    (drawChart ⟨true, none⟩ dataABC 300 300).rendered
      = (drawChart ⟨true, some (renderSvg dataZero 300 300)⟩ dataABC 300 300).rendered
    ∧ ((renderSvg dataABC 300 300).arcs[0]?).map SvgArc.fill
        = some ((sliceAt dataABC 0).color.getD (schemeCategory10.getD (0 % 10) "")) :=
  ⟨c9_svg_idempotent.1 ⟨true, none⟩ ⟨true, some (renderSvg dataZero 300 300)⟩ dataABC 300 300
      rfl rfl,
    (c9_svg_idempotent.2.2 dataABC 300 300 0 (by norm_num [dataABC])).1⟩

/-- Claim C5: a click on a rendered segment emits exactly one event
whose payload is the data entry at the segment's positional index: the
canvas widget's click subscription resolves the first hit-tested
index into the current data and emits that entry, and both the arc
path's and the label's click handler of the SVG widget emit the bound
slice record. -/
theorem c5_click_payload :
    (∀ (c : ChartInstance) (idx : ℕ) (rest : List ℕ) (data : List Slice),
        idx < data.length →
        canvasClickHandler (some c) (idx :: rest) data = [sliceAt data idx])
    ∧ (∀ (data : List Slice) (w h : ℚ) (j : ℕ), j < data.length →
        ((renderSvg data w h).arcs[j]?).map svgPathClick = some [sliceAt data j]
        ∧ ((renderSvg data w h).arcs[j]?).map svgLabelClick = some [sliceAt data j]) := by
  constructor
  · intro c idx rest data hidx
    rw [canvasClickHandler, get?_sliceAt data idx hidx]
  · intro data w h j hj
    rw [renderSvg_getElem data w h j hj]
    constructor
    · rw [Option.map_some', svgPathClick, d3PieArc_data]
    · rw [Option.map_some', svgLabelClick, d3PieArc_data]

/-- Witness: C5 on the scenario data, clicking segment 1 through the
canvas hit test and through the SVG path handler. -/
theorem c5_click_payload_witness :
    canvasClickHandler (some ⟨0, ⟨[], [], []⟩, ⟨false, false, "", true, LabelFormat.label⟩⟩)
        [1] dataABC = [sliceAt dataABC 1]
    ∧ ((renderSvg dataABC 300 300).arcs[1]?).map svgPathClick = some [sliceAt dataABC 1] :=
  ⟨c5_click_payload.1 ⟨0, ⟨[], [], []⟩, ⟨false, false, "", true, LabelFormat.label⟩⟩ 1 []
      dataABC (by norm_num [dataABC]),
    (c5_click_payload.2 dataABC 300 300 1 (by norm_num [dataABC])).1⟩

/-- Input changes while no chart instance exists leave the canvas
widget's state untouched. -/
theorem canvasUpdates_none (s : CanvasState) (hs : s.chart = none) :
    ∀ ts : List CanvasTrigger, canvasUpdates s ts = s := by
  intro ts
  induction ts with
  | nil => rfl
  | cons t rest ih =>
      have hstep : updateChart s t.inputs t.randColor = s := by
        rw [updateChart, hs]
      rw [canvasUpdates, List.foldl_cons, hstep]
      exact ih

/-- Input changes after an instance exists keep the same instance
identity, allocate nothing, and end with the data and options of the
latest inputs applied to that same instance. -/
theorem canvasUpdates_some (ts : List CanvasTrigger) :
    ∀ (s : CanvasState) (c : ChartInstance), s.chart = some c →
      ∃ d o, (canvasUpdates s ts).chart = some ⟨c.id, d, o⟩
        ∧ (canvasUpdates s ts).nextId = s.nextId := by
  induction ts with
  | nil =>
      intro s c hs
      exact ⟨c.data, c.options, by rw [canvasUpdates, List.foldl_nil, hs], rfl⟩
  | cons t rest ih =>
      intro s c hs
      have hstep : updateChart s t.inputs t.randColor =
          { s with chart := some ⟨c.id, (getChartConfig t.inputs t.randColor).data,
                                   (getChartConfig t.inputs t.randColor).options⟩ } := by
        rw [updateChart, hs]
      rw [canvasUpdates, List.foldl_cons, hstep]
      rcases ih ({ s with chart := some ⟨c.id, (getChartConfig t.inputs t.randColor).data,
            (getChartConfig t.inputs t.randColor).options⟩ })
          ⟨c.id, (getChartConfig t.inputs t.randColor).data,
            (getChartConfig t.inputs t.randColor).options⟩ rfl with ⟨d, o, hchart, hid⟩
      exact ⟨d, o, hchart, hid⟩

/-- Claim C6: the canvas widget creates at most one chart-library
instance, lazily at initChart; an input change before the instance
exists is a no-op; every later input change mutates the same instance
(same identity, no new allocation) writing the configuration of the
latest inputs; over a whole widget life at most one allocation
happens. -/
theorem c6_single_instance :
    (∀ (s : CanvasState) (ts : List CanvasTrigger), s.chart = none → canvasUpdates s ts = s)
    ∧ (∀ (s : CanvasState) (canvasOk ctxOk : Bool) (inp : CanvasInputs) (rand : ℕ → String),
        canvasOk = true → ctxOk = true →
        (initChart s canvasOk ctxOk inp rand).chart
          = some ⟨s.nextId, (getChartConfig inp rand).data, (getChartConfig inp rand).options⟩
        ∧ (initChart s canvasOk ctxOk inp rand).nextId = s.nextId + 1)
    ∧ (∀ (s : CanvasState) (c : ChartInstance) (inp : CanvasInputs) (rand : ℕ → String),
        s.chart = some c →
        (updateChart s inp rand).chart
          = some ⟨c.id, (getChartConfig inp rand).data, (getChartConfig inp rand).options⟩
        ∧ (updateChart s inp rand).nextId = s.nextId)
    ∧ (∀ (s : CanvasState) (c : ChartInstance) (ts : List CanvasTrigger), s.chart = some c →
        ∃ d o, (canvasUpdates s ts).chart = some ⟨c.id, d, o⟩
          ∧ (canvasUpdates s ts).nextId = s.nextId)
    ∧ (∀ (pre : List CanvasTrigger) (canvasOk ctxOk : Bool) (inp : CanvasInputs)
        (rand : ℕ → String) (post : List CanvasTrigger),
        (canvasLifetime pre canvasOk ctxOk inp rand post).nextId ≤ 1) := by
  refine ⟨fun s ts hs => canvasUpdates_none s hs ts, ?_, ?_,
    fun s c ts hs => canvasUpdates_some ts s c hs, ?_⟩
  · intro s canvasOk ctxOk inp rand hc hx
    rw [initChart, hc, hx]
    exact ⟨rfl, rfl⟩
  · intro s c inp rand hs
    rw [updateChart, hs]
    exact ⟨rfl, rfl⟩
  · intro pre canvasOk ctxOk inp rand post
    rw [canvasLifetime, canvasUpdates_none canvasInit rfl pre]
    cases hc : canvasOk
    · have hinit : initChart canvasInit false ctxOk inp rand = canvasInit := by
        rw [initChart]
        rfl
      rw [hinit, canvasUpdates_none canvasInit rfl post]
      exact Nat.zero_le 1
    · cases hx : ctxOk
      · have hinit : initChart canvasInit true false inp rand = canvasInit := by
          rw [initChart]
          rfl
        rw [hinit, canvasUpdates_none canvasInit rfl post]
        exact Nat.zero_le 1
      · have hinit : (initChart canvasInit true true inp rand).chart
            = some ⟨0, (getChartConfig inp rand).data, (getChartConfig inp rand).options⟩ := by
          rw [initChart]
          rfl
        rcases canvasUpdates_some post _ _ hinit with ⟨d, o, _, hid⟩
        rw [hid]
        exact le_refl 1

/-- Witness: C6's lifetime bound and update behaviour at a concrete
run: one successful initialisation followed by one input change. -/
theorem c6_single_instance_witness :
    (canvasUpdates canvasInit [] = canvasInit)
    ∧ (canvasLifetime [] true true ⟨dataABC, "", false, true, LabelFormat.label⟩
        (fun _ => "#000000") [] ).nextId ≤ 1 :=
  ⟨c6_single_instance.1 canvasInit [] rfl,
    c6_single_instance.2.2.2.2 [] true true ⟨dataABC, "", false, true, LabelFormat.label⟩
      (fun _ => "#000000") []⟩

/-- Claim C7: with no mounted surface the SVG widget's draw is silently
skipped and the next trigger with a mounted surface renders; the canvas
widget abandons initialisation silently when the canvas or its 2d
context is unavailable, and then stays inert (no chart instance) for
the rest of its life. -/
theorem c7_surface_guards :
    (∀ (s : D3State) (data : List Slice) (w h : ℚ), s.chartRef = false →
        drawChart s data w h = s)
    ∧ (∀ (s : D3State) (ts : List D3Trigger) (t : D3Trigger), t.refOk = true →
        (d3Run s (ts ++ [t])).rendered = some (renderSvg t.data t.width t.height))
    ∧ (∀ (s : CanvasState) (canvasOk ctxOk : Bool) (inp : CanvasInputs) (rand : ℕ → String),
        canvasOk = false ∨ ctxOk = false → initChart s canvasOk ctxOk inp rand = s)
    ∧ (∀ (pre : List CanvasTrigger) (canvasOk ctxOk : Bool) (inp : CanvasInputs)
        (rand : ℕ → String) (post : List CanvasTrigger),
        canvasOk = false ∨ ctxOk = false →
        (canvasLifetime pre canvasOk ctxOk inp rand post).chart = none) := by
  refine ⟨?_, ?_, ?_, ?_⟩
  · intro s data w h hr
    rw [drawChart, if_neg]
    rw [hr]
    exact Bool.false_ne_true
  · intro s ts t ht
    rw [d3Run, List.foldl_append, List.foldl_cons, List.foldl_nil, drawChart, if_pos ht]
  · intro s canvasOk ctxOk inp rand hfail
    rcases hfail with hc | hx
    · rw [initChart, hc]
      rfl
    · cases hc : canvasOk
      · rw [initChart]
        rfl
      · rw [initChart, hx]
        rfl
  · intro pre canvasOk ctxOk inp rand post hfail
    rw [canvasLifetime, canvasUpdates_none canvasInit rfl pre]
    have hinit : initChart canvasInit canvasOk ctxOk inp rand = canvasInit := by
      rcases hfail with hc | hx
      · rw [initChart, hc]
        rfl
      · cases hc : canvasOk
        · rw [initChart]
          rfl
        · rw [initChart, hx]
          rfl
    rw [hinit, canvasUpdates_none canvasInit rfl post]
    rfl

/-- Witness: C7 with an unmounted SVG surface, then a mounted trigger,
and a canvas widget whose 2d context is missing. -/
theorem c7_surface_guards_witness :
    drawChart ⟨false, none⟩ dataABC 300 300 = ⟨false, none⟩
    ∧ (d3Run ⟨false, none⟩ [⟨true, dataABC, 300, 300⟩]).rendered
        = some (renderSvg dataABC 300 300)
    ∧ (canvasLifetime [] true false ⟨dataABC, "", false, true, LabelFormat.label⟩
        (fun _ => "#000000") []).chart = none :=
  ⟨c7_surface_guards.1 ⟨false, none⟩ dataABC 300 300 rfl,
    by
      have h := c7_surface_guards.2.1 ⟨false, none⟩ []
        (⟨true, dataABC, 300, 300⟩ : D3Trigger) rfl
      simpa using h,
    c7_surface_guards.2.2.2 [] true false ⟨dataABC, "", false, true, LabelFormat.label⟩
      (fun _ => "#000000") [] (Or.inr rfl)⟩

/-- Claim C8: teardown is safe on every path: the canvas widget's
destroy hook destroys the instance exactly when one exists (one destroy
call, field nulled) and is a no-op otherwise; afterwards no instance
remains; the SVG widget's destroy hook clears the surface when the
reference resolves and does nothing when it is absent. -/
theorem c8_teardown :
    (∀ (s : CanvasState) (c : ChartInstance), s.chart = some c →
        canvasNgOnDestroy s = ({ s with chart := none }, 1))
    ∧ (∀ s : CanvasState, s.chart = none → canvasNgOnDestroy s = (s, 0))
    ∧ (∀ s : CanvasState, (canvasNgOnDestroy s).1.chart = none)
    ∧ (∀ s : D3State, s.chartRef = true → (d3NgOnDestroy s).rendered = none)
    ∧ (∀ s : D3State, s.chartRef = false → d3NgOnDestroy s = s) := by
  refine ⟨?_, ?_, ?_, ?_, ?_⟩
  · intro s c hs
    rw [canvasNgOnDestroy, hs]
  · intro s hs
    rw [canvasNgOnDestroy, hs]
  · intro s
    rcases hs : s.chart with _ | c
    · rw [canvasNgOnDestroy, hs, hs]
    · rw [canvasNgOnDestroy, hs]
  · intro s hr
    rw [d3NgOnDestroy, if_pos hr]
  · intro s hr
    rw [d3NgOnDestroy, if_neg]
    rw [hr]
    exact Bool.false_ne_true

/-- Witness: C8 destroying a canvas widget that never created an
instance and one that did, and an SVG widget in both mount states. -/
theorem c8_teardown_witness :
    canvasNgOnDestroy canvasInit = (canvasInit, 0)
    ∧ (canvasNgOnDestroy
        ⟨some ⟨0, ⟨[], [], []⟩, ⟨false, false, "", true, LabelFormat.label⟩⟩, 1⟩).1.chart = none
    ∧ (d3NgOnDestroy ⟨true, some (renderSvg dataABC 300 300)⟩).rendered = none
    ∧ d3NgOnDestroy ⟨false, none⟩ = ⟨false, none⟩ :=
  ⟨c8_teardown.2.1 canvasInit rfl,
    c8_teardown.2.2.1 ⟨some ⟨0, ⟨[], [], []⟩, ⟨false, false, "", true, LabelFormat.label⟩⟩, 1⟩,
    c8_teardown.2.2.2.1 ⟨true, some (renderSvg dataABC 300 300)⟩ rfl,
    c8_teardown.2.2.2.2 ⟨false, none⟩ rfl⟩

/-- With a nonzero total the percentage pipeline is exact rational
division followed by rounding. -/
theorem percentageOf_of_ne (v total : ℚ) (h : total ≠ 0) :
    percentageOf v total = JsNum.num ((round (v / total * 100) : ℤ) : ℚ) := by
  rw [percentageOf, jsDiv, if_neg h, JsNum.scale, jsRound]

/-- Stringification of an integral JavaScript number is integer
stringification. -/
theorem toJsString_int (n : ℤ) :
    (JsNum.num ((n : ℤ) : ℚ)).toJsString = toString n := by
  rw [JsNum.toJsString, jsRatToString, if_pos (Rat.den_intCast n), Rat.num_intCast]

/-- The chart configuration's label at a valid index is the slice's
label. -/
theorem getD_labelsOf (data : List Slice) (i : ℕ) (hi : i < data.length) :
    (labelsOf data).getD i "" = (sliceAt data i).label := by
  rw [labelsOf, sliceAt, List.getD_eq_getElem?_getD, List.getElem?_map,
    ← List.get?_eq_getElem?, get?_sliceAt data i hi]
  rfl

/-- The chart configuration's dataset value at a valid index is the
slice's value. -/
theorem getD_valuesOf (data : List Slice) (i : ℕ) (hi : i < data.length) :
    (valuesOf data).getD i 0 = (sliceAt data i).value := by
  rw [valuesOf, List.getD_eq_getElem?_getD, List.getElem?_map,
    ← List.get?_eq_getElem?, get?_sliceAt data i hi]
  rfl

/-- Claim C3: the canvas widget's inline label text by labelFormat:
value gives the raw value, percentage gives round(value / total * 100)
with a percent suffix, label-value gives "label: value",
label-percentage gives "label: pct%", and label gives the raw label,
with total the sum of the dataset values; in particular the scenario
data with label-percentage yields "A: 30%", "B: 50%", "C: 20%". -/
theorem c3_formatter (data : List Slice) (i : ℕ) (hi : i < data.length)
    (hpos : 0 < (valuesOf data).sum) :
    (formatter LabelFormat.value (labelsOf data) (valuesOf data) i
        = jsRatToString (sliceAt data i).value
      ∧ formatter LabelFormat.percentage (labelsOf data) (valuesOf data) i
          = toString (round ((sliceAt data i).value / (valuesOf data).sum * 100) : ℤ) ++ "%"
      ∧ formatter LabelFormat.labelValue (labelsOf data) (valuesOf data) i
          = (sliceAt data i).label ++ ": " ++ jsRatToString (sliceAt data i).value
      ∧ formatter LabelFormat.labelPercentage (labelsOf data) (valuesOf data) i
          = (sliceAt data i).label ++ ": "
              ++ toString (round ((sliceAt data i).value / (valuesOf data).sum * 100) : ℤ) ++ "%"
      ∧ formatter LabelFormat.label (labelsOf data) (valuesOf data) i
          = (sliceAt data i).label)
    ∧ (formatter LabelFormat.labelPercentage (labelsOf dataABC) (valuesOf dataABC) 0 = "A: 30%"
      ∧ formatter LabelFormat.labelPercentage (labelsOf dataABC) (valuesOf dataABC) 1 = "B: 50%"
      ∧ formatter LabelFormat.labelPercentage (labelsOf dataABC) (valuesOf dataABC) 2 = "C: 20%") := by
  have hne : (valuesOf data).sum ≠ 0 := ne_of_gt hpos
  have hlab := getD_labelsOf data i hi
  have hval := getD_valuesOf data i hi
  constructor
  · refine ⟨?_, ?_, ?_, ?_, ?_⟩
    · rw [formatter]
      simp only [hval]
    · rw [formatter]
      simp only [hval, percentageOf_of_ne _ _ hne, toJsString_int]
    · rw [formatter]
      simp only [hlab, hval]
    · rw [formatter]
      simp only [hlab, hval, percentageOf_of_ne _ _ hne, toJsString_int]
    · rw [formatter]
      simp only [hlab]
  · refine ⟨?_, ?_, ?_⟩ <;>
      · norm_num [formatter, labelsOf, valuesOf, dataABC, percentageOf, jsDiv,
          JsNum.scale, jsRound, JsNum.toJsString, jsRatToString]
        decide

/-- Witness: C3 on the scenario data at index 0. -/
theorem c3_formatter_witness :
    formatter LabelFormat.percentage (labelsOf dataABC) (valuesOf dataABC) 0
      = toString (round ((sliceAt dataABC 0).value / (valuesOf dataABC).sum * 100) : ℤ) ++ "%"
    ∧ formatter LabelFormat.labelPercentage (labelsOf dataABC) (valuesOf dataABC) 0 = "A: 30%" :=
  ⟨((c3_formatter dataABC 0 (by norm_num [dataABC])
      (by norm_num [valuesOf, dataABC])).1).2.1,
    ((c3_formatter dataABC 0 (by norm_num [dataABC])
      (by norm_num [valuesOf, dataABC])).2).1⟩

/-- A defaulted lookup in a list of nonnegative rationals is
nonnegative. -/
theorem getD_nonneg (l : List ℚ) (i : ℕ) (h : ∀ x ∈ l, 0 ≤ x) : 0 ≤ l.getD i 0 := by
  rw [List.getD_eq_getElem?_getD]
  rcases hv : l[i]? with _ | v
  · rw [Option.getD_none]
  · rw [Option.getD_some]
    exact h v (List.getElem?_mem hv)

/-- In a list of nonnegative rationals summing to zero every element is
zero. -/
theorem eq_zero_of_nonneg_sum_zero :
    ∀ l : List ℚ, (∀ x ∈ l, 0 ≤ x) → l.sum = 0 → ∀ x ∈ l, x = 0 := by
  intro l
  induction l with
  | nil => intro _ _ x hx; simp at hx
  | cons a t ih =>
      intro hnn hsum x hx
      have ha : 0 ≤ a := hnn a (List.mem_cons_self a t)
      have htn : ∀ y ∈ t, 0 ≤ y := fun y hy => hnn y (List.mem_cons_of_mem a hy)
      have hts : 0 ≤ t.sum := List.sum_nonneg htn
      rw [List.sum_cons] at hsum
      have ha0 : a = 0 := by linarith
      have ht0 : t.sum = 0 := by linarith
      rcases List.mem_cons.mp hx with rfl | hx
      · exact ha0
      · exact ih htn ht0 x hx

/-- The display callback for an enabled flag and a nonzero total is the
decidable 5 percent test. -/
theorem displayLabel_true_of_ne (values : List ℚ) (i : ℕ) (h : values.sum ≠ 0) :
    displayLabel true values i = decide (5 ≤ values.getD i 0 / values.sum * 100) := by
  simp only [displayLabel, Bool.not_true, Bool.false_eq_true, if_false, jsDiv, if_neg h,
    JsNum.scale, JsNum.geNum]

/-- Claim C4: with nonnegative values, a segment whose value is below 5
percent of the total never gets an inline label whatever the flag;
with the flag off no segment gets one; with the flag on and a positive
total a segment gets one exactly when its share is at least 5
percent. -/
theorem c4_five_percent (data : List Slice) (i : ℕ)
    (hnn : ∀ s ∈ data, 0 ≤ s.value) :
    (∀ b : Bool, (valuesOf data).getD i 0 * 20 < (valuesOf data).sum →
        displayLabel b (valuesOf data) i = false)
    ∧ displayLabel false (valuesOf data) i = false
    ∧ (0 < (valuesOf data).sum →
        (displayLabel true (valuesOf data) i = true
          ↔ (valuesOf data).sum ≤ (valuesOf data).getD i 0 * 20)) := by
  have hvnn : ∀ x ∈ valuesOf data, 0 ≤ x := by
    intro x hx
    rcases List.mem_map.mp hx with ⟨s, hs, rfl⟩
    exact hnn s hs
  have hv : 0 ≤ (valuesOf data).getD i 0 := getD_nonneg _ i hvnn
  have htot : 0 ≤ (valuesOf data).sum := List.sum_nonneg hvnn
  refine ⟨?_, rfl, ?_⟩
  · intro b hlt
    have hpos : 0 < (valuesOf data).sum := by
      rcases lt_or_eq_of_le htot with h | h
      · exact h
      · exfalso; rw [← h] at hlt; linarith
    cases b
    · rfl
    · rw [displayLabel_true_of_ne _ _ (ne_of_gt hpos)]
      rw [decide_eq_false_iff_not]
      intro hge
      rw [div_mul_eq_mul_div, le_div_iff₀ hpos] at hge
      linarith
  · intro hpos
    rw [displayLabel_true_of_ne _ _ (ne_of_gt hpos), decide_eq_true_iff]
    rw [div_mul_eq_mul_div, le_div_iff₀ hpos]
    constructor
    · intro h; linarith
    · intro h; linarith

/-- Witness: C4 on the scenario data with a fourth tiny slice of value
2 (2 percent of the total): no inline label whatever the flag. -/
theorem c4_five_percent_witness :
    displayLabel true (valuesOf (dataABC ++ [⟨"D", 2, none⟩])) 3 = false
    ∧ displayLabel false (valuesOf (dataABC ++ [⟨"D", 2, none⟩])) 3 = false := by
  have hnn : ∀ s ∈ dataABC ++ [⟨"D", 2, none⟩], 0 ≤ s.value := by
    intro s hs
    simp only [dataABC, List.mem_append, List.mem_cons, List.mem_singleton,
      List.not_mem_nil, or_false] at hs
    rcases hs with (rfl | rfl | rfl) | rfl <;> norm_num
  have h := c4_five_percent (dataABC ++ [⟨"D", 2, none⟩]) 3 hnn
  refine ⟨h.1 true ?_, h.2.1⟩
  norm_num [valuesOf, dataABC]

/-- Claim C10: when the (nonnegative) dataset values sum to 0, the
canvas widget's percentage computations divide zero by zero, giving NaN
without an error; the display predicate is then false for every
segment and both flag settings, and the formatter and tooltip
percentage fields read NaN. -/
theorem c10_zero_total (data : List Slice) (hnn : ∀ s ∈ data, 0 ≤ s.value)
    (hsum : (valuesOf data).sum = 0) :
    (∀ (b : Bool) (i : ℕ), displayLabel b (valuesOf data) i = false)
    ∧ (∀ i, i < data.length →
        jsDiv ((valuesOf data).getD i 0) ((valuesOf data).sum) = JsNum.nan
        ∧ percentageOf ((valuesOf data).getD i 0) ((valuesOf data).sum) = JsNum.nan
        ∧ formatter LabelFormat.percentage (labelsOf data) (valuesOf data) i = "NaN%"
        ∧ formatter LabelFormat.labelPercentage (labelsOf data) (valuesOf data) i
            = (sliceAt data i).label ++ ": NaN%"
        ∧ tooltipLabel (labelsOf data) (valuesOf data) i
            = (sliceAt data i).label ++ ": 0 (NaN%)") := by
  have hvnn : ∀ x ∈ valuesOf data, 0 ≤ x := by
    intro x hx
    rcases List.mem_map.mp hx with ⟨s, hs, rfl⟩
    exact hnn s hs
  have hzero : ∀ x ∈ valuesOf data, x = 0 :=
    eq_zero_of_nonneg_sum_zero (valuesOf data) hvnn hsum
  have hgetD : ∀ i : ℕ, (valuesOf data).getD i 0 = 0 := by
    intro i
    rw [List.getD_eq_getElem?_getD]
    rcases hv : (valuesOf data)[i]? with _ | v
    · rw [Option.getD_none]
    · rw [Option.getD_some]
      exact hzero v (List.getElem?_mem hv)
  have hdiv : ∀ i : ℕ,
      jsDiv ((valuesOf data).getD i 0) ((valuesOf data).sum) = JsNum.nan := by
    intro i
    rw [hgetD i, hsum, jsDiv, if_pos rfl, if_pos rfl]
  have hpct : ∀ i : ℕ,
      percentageOf ((valuesOf data).getD i 0) ((valuesOf data).sum) = JsNum.nan := by
    intro i
    rw [percentageOf, hdiv i]
    rfl
  constructor
  · intro b i
    cases b
    · rfl
    · simp only [displayLabel, Bool.not_true, Bool.false_eq_true, if_false, hdiv i]
      rfl
  · intro i hi
    refine ⟨hdiv i, hpct i, ?_, ?_, ?_⟩
    · rw [formatter]
      simp only [hpct i]
      decide
    · rw [formatter]
      simp only [hpct i, getD_labelsOf data i hi, JsNum.toJsString,
        String.append_assoc]
      rw [show (": " ++ ("NaN" ++ "%") : String) = ": NaN%" by decide]
    · rw [tooltipLabel]
      simp only [hgetD i, hsum, getD_labelsOf data i hi]
      rw [show percentageOf 0 (0:ℚ) = JsNum.nan by
        rw [percentageOf, jsDiv, if_pos rfl, if_pos rfl]
        rfl]
      simp only [JsNum.toJsString, String.append_assoc]
      rw [show (": " ++ (jsRatToString 0 ++ (" (" ++ ("NaN" ++ "%)"))) : String)
          = ": 0 (NaN%)" by decide]

/-- Witness: C10 on the one-slice zero-value data. -/
theorem c10_zero_total_witness :
    displayLabel true (valuesOf dataZero) 0 = false
    ∧ formatter LabelFormat.percentage (labelsOf dataZero) (valuesOf dataZero) 0 = "NaN%"
    ∧ tooltipLabel (labelsOf dataZero) (valuesOf dataZero) 0 = "Z" ++ ": 0 (NaN%)" := by
  have hnn : ∀ s ∈ dataZero, 0 ≤ s.value := by
    intro s hs
    simp only [dataZero, List.mem_singleton] at hs
    rw [hs]
  have hsum : (valuesOf dataZero).sum = 0 := by
    norm_num [valuesOf, dataZero]
  have h := c10_zero_total dataZero hnn hsum
  have hi : 0 < dataZero.length := by norm_num [dataZero]
  refine ⟨h.1 true 0, (h.2 0 hi).2.2.1, ?_⟩
  have ht := (h.2 0 hi).2.2.2.2
  rw [show (sliceAt dataZero 0).label = "Z" from rfl] at ht
  exact ht

end Chart
